import Mathlib

/-!
Verification development for the branch/merge wrapper in
`src/cmake-build-debug/Branch.cpp` (namespace `git`). The wrapper drives an
external version-control engine (libgit2); we shallowly embed the wrapper's
own control flow over an explicit repository state, and model the external
engine's primitives (`git_merge_analysis`, `git_checkout_head`, `git_merge`,
`git_commit_create_v`) from their documented semantics as described by the
design document (commit graph, reference table, staging index, working tree).

Since the sequence of C++ calls mutates the repository in place and reports
failures by throwing exceptions, each embedded operation returns a `Res α`:
either `ok` with a value and the resulting state, or `err` with the exception
message and the state as it stands at the moment of the throw (in-place
mutations performed before the throw are retained, exactly as in C++).
-/

namespace Git

/-- A commit object: content id, flat tree (path to blob content), parent ids.
Mirrors the data model: `Commit = { self, tree, parents }`. -/
structure Commit where
  id : Nat
  tree : List (String × String)
  parents : List Nat
deriving DecidableEq

/-- One index slot for a path: either a single resolved stage-0 entry
(`clean`), or conflict-stage entries (stage 1 = common ancestor, stage 2 =
ours, stage 3 = theirs), each side optional to allow delete-vs-modify
conflicts. -/
inductive IdxState where
  | clean (content : String)
  | conflict (base ours theirs : Option String)
deriving DecidableEq

/-- The repository state shared by all operations of `Branch.cpp`: the
content-addressed object store, the reference table (branch name to tip
commit id), the symbolic HEAD (name of the branch HEAD points at), the
staging index, the working directory, and a counter supplying the id of the
next object written to the store. -/
structure Repo where
  store : List Commit
  refs : List (String × Nat)
  headRef : String
  index : List (String × IdxState)
  workdir : List (String × String)
  nextId : Nat
deriving DecidableEq

/-- Outcome of an embedded operation: the C++ methods mutate the repository
in place and throw on failure, so both constructors carry the state reached
when the operation returns or throws. -/
inductive Res (α : Type) where
  | ok (val : α) (repo : Repo)
  | err (msg : String) (repo : Repo)
deriving DecidableEq

/-- Look up a commit in the object store by id. -/
def lookupCommit (s : List Commit) (i : Nat) : Option Commit :=
  s.find? (fun c => c.id == i)

/-- Parent ids of the commit `i`, empty when `i` is absent from the store. -/
def parentsOf (s : List Commit) (i : Nat) : List Nat :=
  ((lookupCommit s i).map Commit.parents).getD []

/-- All commit ids reachable from `i` along parent edges, explored to the
given depth. Depth `s.length` suffices for an acyclic store. -/
def reachFrom (s : List Commit) : Nat → Nat → List Nat
  | 0, i => [i]
  | fuel + 1, i => i :: (parentsOf s i).flatMap (reachFrom s fuel)

/-- `a` is an ancestor of `b` (or equal to it) in the commit graph. -/
def isAncestor (s : List Commit) (a b : Nat) : Bool :=
  (reachFrom s s.length b).contains a

/-- Resolve a branch name through the reference table. -/
def resolveRef (r : Repo) (name : String) : Option Nat :=
  (r.refs.find? (fun p => p.1 == name)).map Prod.snd

/-- Update (or create) the reference `name`, pointing it at `tip`. -/
def setRef (refs : List (String × Nat)) (name : String) (tip : Nat) :
    List (String × Nat) :=
  if refs.any (fun p => p.1 == name) then
    refs.map (fun p => if p.1 == name then (name, tip) else p)
  else refs ++ [(name, tip)]

/-- The fully clean (all stage-0) index matching a tree. -/
def cleanIndexOf (tree : List (String × String)) : List (String × IdxState) :=
  tree.map (fun p => (p.1, IdxState.clean p.2))

/-- Embeds `git_index_has_conflicts`: does any path hold conflict-stage
entries? -/
def indexHasConflicts (idx : List (String × IdxState)) : Bool :=
  idx.any (fun e => match e.2 with
    | .conflict _ _ _ => true
    | .clean _ => false)

/-- Embeds `git_index_write_tree` on a conflict-free index: the tree formed
by the stage-0 entries. -/
def cleanTree (idx : List (String × IdxState)) : List (String × String) :=
  idx.filterMap (fun e => match e.2 with
    | .clean c => some (e.1, c)
    | .conflict _ _ _ => none)

/-- Embeds `git::Branch::getConflictingFiles` (Branch.cpp:259-289): iterate
the index conflict entries and record `ours->path`, but only when the
stage-2 (ours) side is present — the source pushes the path under
`if (ours)`, so a conflict whose ours side is a deletion is skipped. -/
def getConflictingFiles (idx : List (String × IdxState)) : List String :=
  idx.filterMap (fun e => match e.2 with
    | .conflict _ ours _ => if ours.isSome then some e.1 else none
    | .clean _ => none)

/-- Content of path `p` in the working directory, if present. -/
def wdLookup (wd : List (String × String)) (p : String) : Option String :=
  (wd.find? (fun e => e.1 == p)).map Prod.snd

/-- A tracked file is dirty when its working-directory content differs from
its stage-0 index entry (a locally deleted tracked file also counts). -/
def hasDirtyFile (r : Repo) : Bool :=
  r.index.any (fun e => match e.2 with
    | .clean c => wdLookup r.workdir e.1 != some c
    | .conflict _ _ _ => false)

/-- Modelled from the spec: the external engine call
`git_checkout_head(repo, opts)` with `GIT_CHECKOUT_SAFE`
(the only strategy Branch.cpp ever passes; `force` mirrors
`GIT_CHECKOUT_FORCE`, never used by the source). Per the Checkout Engine
contract, it materializes the tree of the commit HEAD resolves to into the
working directory and resets the index to a fully clean state matching it,
but in SAFE mode fails with a dirty-working-tree error — changing nothing —
if a tracked file has local modifications not reflected in the index's
stage-0 entries. -/
def gitCheckoutHead (force : Bool) (r : Repo) : Res Unit :=
  match resolveRef r r.headRef with
  | none => .err "Failed to resolve HEAD" r
  | some hid =>
    match lookupCommit r.store hid with
    | none => .err "Failed to find HEAD commit" r
    | some c =>
      if !force && hasDirtyFile r then
        .err "local changes would be overwritten by checkout" r
      else
        .ok () { r with workdir := c.tree, index := cleanIndexOf c.tree }

/-- Modelled from the spec: the external engine call
`git_repository_set_head(repo, refname)` — HEAD is repointed symbolically at
the named branch. -/
def gitRepositorySetHead (r : Repo) (name : String) : Repo :=
  { r with headRef := name }

/-- A `git::Branch` handle as constructed by `Branch::Branch`
(Branch.cpp:6-13): a non-owning reference to the branch (its name) plus the
snapshot `_lastCommit` of the tip taken at construction time. -/
structure BranchH where
  refName : String
  lastCommit : Nat
deriving DecidableEq

/-- Construct a branch handle from the current repository state, caching the
tip commit at construction time, as `Branch::Branch` peels the reference to
a commit and stores it in `_lastCommit`. -/
def mkBranch (r : Repo) (name : String) : Option BranchH :=
  (resolveRef r name).map (fun tip => ⟨name, tip⟩)

/-- Embeds `git::Branch::getLastCommit` (Branch.cpp:81-83): returns the
cached `_lastCommit` snapshot; the method does not consult the repository
state at all. -/
def getLastCommit (b : BranchH) : Nat :=
  b.lastCommit

/-- Embeds `git::Branch::checkout` (Branch.cpp:93-119): first repoint HEAD
at the target branch via `git_repository_set_head`, then run
`git_checkout_head` with the SAFE strategy; a checkout failure throws with
HEAD already moved. -/
def checkout (r : Repo) (target : BranchH) : Res Unit :=
  let r1 := gitRepositorySetHead r target.refName
  match gitCheckoutHead false r1 with
  | .ok _ r2 => .ok () r2
  | .err m r2 => .err ("Checkout failed: " ++ m) r2

/-- Modelled from the spec: the fast-forward bit of
`git_merge_analysis(repo, target)` — set exactly when the commit HEAD
resolves to is a strict ancestor of the target commit (when the target is
already contained in HEAD the analysis is up-to-date, not fast-forward). -/
def mergeAnalysisFastforward (r : Repo) (targetId : Nat) : Bool :=
  match resolveRef r r.headRef with
  | none => false
  | some hid => hid != targetId && isAncestor r.store hid targetId

/-- Embeds `git::Branch::performFastforward` (Branch.cpp:147-195): looks up
the target branch handle's cached last commit, runs merge analysis against
HEAD, and when the fast-forward bit is set repoints HEAD at the *current*
branch's own name (`git_reference_name(_branch)`) and checks out HEAD; the
branch reference itself is never retargeted. Returns whether the
fast-forward path was taken. -/
def performFastforward (r : Repo) (cur tgt : BranchH) : Res Bool :=
  let tc := getLastCommit tgt
  match lookupCommit r.store tc with
  | none => .err "Failed to lookup annotated commit for fast-forward." r
  | some _ =>
    if mergeAnalysisFastforward r tc then
      let r1 := gitRepositorySetHead r cur.refName
      match gitCheckoutHead false r1 with
      | .ok _ r2 => .ok true r2
      | .err m r2 => .err ("Fast-forward checkout failed: " ++ m) r2
    else .ok false r

/-- Modelled from the spec: the external engine call
`git_merge(repo, nullptr, 0, nullptr, nullptr)` exactly as
`executeMergeCommit` issues it — with an empty collection of heads to merge.
Merging no heads into HEAD stages no changes and records no conflicts, so
the repository state (index included) is unchanged; in particular the target
branch, which the source never passes to the engine, is not merged. -/
def gitMergeZeroHeads (r : Repo) : Repo :=
  r

/-- Embeds `git::Branch::executeMergeCommit` (Branch.cpp:198-257): run
`git_merge` (with zero heads, as the source does), throw if the index holds
conflicts, otherwise write the index to a tree, read the commit HEAD
currently resolves to as the sole parent, and create the new commit with
update-ref "HEAD" (advancing the branch HEAD names). The branch the method
was invoked on plays no part: the function consumes only the repository. -/
def executeMergeCommit (r : Repo) : Res Unit :=
  let r0 := gitMergeZeroHeads r
  if indexHasConflicts r0.index then
    .err "Merge conflicts detected." r0
  else
    let t := cleanTree r0.index
    match resolveRef r0 r0.headRef with
    | none => .err "Failed to get HEAD commit." r0
    | some hid =>
      match lookupCommit r0.store hid with
      | none => .err "Failed to get HEAD commit." r0
      | some _ =>
        .ok () { r0 with
          store := r0.store ++ [⟨r0.nextId, t, [hid]⟩],
          refs := setRef r0.refs r0.headRef r0.nextId,
          nextId := r0.nextId + 1 }

/-- Embeds `git::Branch::executeMerge` (Branch.cpp:131-146): try the
fast-forward path; if it was not taken, run `executeMergeCommit` and then
throw if `getConflictingFiles` is non-empty (the message carries only the
count of conflicting files). -/
def executeMerge (r : Repo) (cur tgt : BranchH) : Res Unit :=
  match performFastforward r cur tgt with
  | .err m r1 => .err m r1
  | .ok true r1 => .ok () r1
  | .ok false r1 =>
    match executeMergeCommit r1 with
    | .err m r2 => .err m r2
    | .ok _ r2 =>
      let conflicts := getConflictingFiles r2.index
      if conflicts.isEmpty then .ok () r2
      else
        .err ("Merge completed with conflicts. Files in conflict: " ++
          toString conflicts.length) r2

/-! Concrete repository states used to evaluate the operations. -/

/-- Base commit with `f.txt = x`; `main` adds `g.txt = y` (commit 1);
`feature` modifies `f.txt = z` (commit 2): disjoint-path edits relative to
the common ancestor, with HEAD on `main` and a clean working state. -/
def c1Repo : Repo :=
  ⟨[⟨0, [("f.txt", "x")], []⟩, ⟨1, [("f.txt", "x"), ("g.txt", "y")], [0]⟩,
    ⟨2, [("f.txt", "z")], [0]⟩],
   [("main", 1), ("feature", 2)], "main",
   cleanIndexOf [("f.txt", "x"), ("g.txt", "y")],
   [("f.txt", "x"), ("g.txt", "y")], 3⟩

/-- The state `executeMerge c1Repo` actually produces: a new commit 3 whose
tree is just the ours tree and whose parent list is `[1]`. -/
def c1After : Repo :=
  ⟨[⟨0, [("f.txt", "x")], []⟩, ⟨1, [("f.txt", "x"), ("g.txt", "y")], [0]⟩,
    ⟨2, [("f.txt", "z")], [0]⟩, ⟨3, [("f.txt", "x"), ("g.txt", "y")], [1]⟩],
   [("main", 3), ("feature", 2)], "main",
   cleanIndexOf [("f.txt", "x"), ("g.txt", "y")],
   [("f.txt", "x"), ("g.txt", "y")], 4⟩

/-- Linear history: commit 0 is the parent of commit 1; `main` sits at 0,
`dev` at 1, HEAD on `main`, clean working state — `main`'s tip is a strict
ancestor of `dev`'s tip. -/
def c2Repo : Repo :=
  ⟨[⟨0, [("f.txt", "x")], []⟩, ⟨1, [("f.txt", "x"), ("g.txt", "y")], [0]⟩],
   [("main", 0), ("dev", 1)], "main",
   cleanIndexOf [("f.txt", "x")], [("f.txt", "x")], 2⟩

/-- Both sides modify `f.txt` differently from the base (`z` on `main`,
`w` on `feature`): a same-path conflicting edit pair. -/
def c3Repo : Repo :=
  ⟨[⟨0, [("f.txt", "x")], []⟩, ⟨1, [("f.txt", "z")], [0]⟩,
    ⟨2, [("f.txt", "w")], [0]⟩],
   [("main", 1), ("feature", 2)], "main",
   cleanIndexOf [("f.txt", "z")], [("f.txt", "z")], 3⟩

/-- The state `executeMerge c3Repo` actually produces: a commit of the ours
tree with a single parent, no conflict recorded anywhere. -/
def c3After : Repo :=
  ⟨[⟨0, [("f.txt", "x")], []⟩, ⟨1, [("f.txt", "z")], [0]⟩,
    ⟨2, [("f.txt", "w")], [0]⟩, ⟨3, [("f.txt", "z")], [1]⟩],
   [("main", 3), ("feature", 2)], "main",
   cleanIndexOf [("f.txt", "z")], [("f.txt", "z")], 4⟩

/-- A single branch `main` at its only commit, clean working state. -/
def c5Repo : Repo :=
  ⟨[⟨0, [("f.txt", "x")], []⟩], [("main", 0)], "main",
   cleanIndexOf [("f.txt", "x")], [("f.txt", "x")], 1⟩

/-- The state `executeMerge c5Repo main main` actually produces: a redundant
new commit duplicating the tree, with `main` advanced to it. -/
def c5After : Repo :=
  ⟨[⟨0, [("f.txt", "x")], []⟩, ⟨1, [("f.txt", "x")], [0]⟩], [("main", 1)],
   "main", cleanIndexOf [("f.txt", "x")], [("f.txt", "x")], 2⟩

/-- Two commits; `main` at 0. Used to construct a branch handle before the
reference moves. -/
def c6Repo : Repo :=
  ⟨[⟨0, [("a", "1")], []⟩, ⟨1, [("a", "2")], [0]⟩], [("main", 0)], "main",
   [("a", IdxState.clean "1")], [("a", "1")], 2⟩

/-- The handle `mkBranch c6Repo "main"` yields: name plus the tip snapshot
taken at construction. -/
def c6H : BranchH :=
  ⟨"main", 0⟩

/-- `c6Repo` after the underlying `main` reference has moved to commit 1. -/
def c6Moved : Repo :=
  { c6Repo with refs := setRef c6Repo.refs "main" 1 }

/-- HEAD on `main`, tracked file `a` locally modified (working copy `DIRTY`
differs from the stage-0 entry `1`); `dev` points at commit 1. -/
def c7Repo : Repo :=
  ⟨[⟨0, [("a", "1")], []⟩, ⟨1, [("a", "2")], [0]⟩],
   [("main", 0), ("dev", 1)], "main",
   [("a", IdxState.clean "1")], [("a", "DIRTY")], 2⟩

/-- The state `checkout c7Repo dev` throws in: HEAD already repointed at
`dev`, index and working directory untouched. -/
def c7Half : Repo :=
  { c7Repo with headRef := "dev" }

/-- Dirty-working-tree repository for the safe-checkout witness: tracked
file `a` modified locally, target branch `dev` resolvable. -/
def c8Repo : Repo :=
  ⟨[⟨0, [("a", "1")], []⟩, ⟨1, [("a", "2")], [0]⟩],
   [("main", 0), ("dev", 1)], "main",
   [("a", IdxState.clean "1")], [("a", "CHANGED")], 2⟩

/-- Handle for `dev` in `c8Repo`. -/
def c8DevH : BranchH :=
  ⟨"dev", 1⟩

/-- The commit `c8DevH` points at. -/
def c8C1 : Commit :=
  ⟨1, [("a", "2")], [0]⟩

/-- Minimal conflict-free repository on which `executeMergeCommit`
succeeds. -/
def c9Repo : Repo :=
  ⟨[⟨0, [("a", "1")], []⟩], [("main", 0)], "main",
   [("a", IdxState.clean "1")], [("a", "1")], 1⟩

/-- The state `executeMergeCommit c9Repo` produces. -/
def c9After : Repo :=
  ⟨[⟨0, [("a", "1")], []⟩, ⟨1, [("a", "1")], [0]⟩], [("main", 1)], "main",
   [("a", IdxState.clean "1")], [("a", "1")], 2⟩

/-- Conflict-free repository for the unreachable-report witness. -/
def c10Repo : Repo :=
  ⟨[⟨0, [("b", "7")], []⟩], [("trunk", 0)], "trunk",
   [("b", IdxState.clean "7")], [("b", "7")], 1⟩

/-- The state `executeMergeCommit c10Repo` produces. -/
def c10After : Repo :=
  ⟨[⟨0, [("b", "7")], []⟩, ⟨1, [("b", "7")], [0]⟩], [("trunk", 1)], "trunk",
   [("b", IdxState.clean "7")], [("b", "7")], 2⟩

/-! Shared inversion and index lemmas. -/

/-- Inversion for a successful `executeMergeCommit`: the starting index was
conflict-free, HEAD resolved to some commit `hid` present in the store, and
the result state appends exactly one commit — tree written from the index's
stage-0 entries, parent list `[hid]` — and retargets the reference HEAD
names to it, leaving index and working directory untouched. -/
theorem executeMergeCommit_ok_inv (r r' : Repo)
    (h : executeMergeCommit r = Res.ok () r') :
    indexHasConflicts r.index = false ∧
    ∃ hid, resolveRef r r.headRef = some hid ∧
      (lookupCommit r.store hid).isSome = true ∧
      r' = { r with
          store := r.store ++ [⟨r.nextId, cleanTree r.index, [hid]⟩],
          refs := setRef r.refs r.headRef r.nextId,
          nextId := r.nextId + 1 } := by
  unfold executeMergeCommit gitMergeZeroHeads at h
  simp only [] at h
  split at h
  · exact absurd h (by simp)
  · rename_i hconf
    split at h
    · exact absurd h (by simp)
    · rename_i hid hres
      split at h
      · exact absurd h (by simp)
      · rename_i c hlook
        refine ⟨by simpa using hconf, hid, hres, by simp [hlook], ?_⟩
        simpa using h.symm

/-- A conflict-free index yields no conflicting files: every entry is a
stage-0 entry, which `getConflictingFiles` skips. -/
theorem getConflictingFiles_eq_nil_of_no_conflicts
    (idx : List (String × IdxState)) (h : indexHasConflicts idx = false) :
    getConflictingFiles idx = [] := by
  induction idx with
  | nil => rfl
  | cons e rest ih =>
    obtain ⟨p, st⟩ := e
    cases st with
    | clean c =>
      simp only [indexHasConflicts, List.any_cons, Bool.or_eq_false_iff] at h
      simp only [getConflictingFiles, List.filterMap_cons]
      exact ih (by simpa [indexHasConflicts] using h.2)
    | conflict b o t =>
      simp [indexHasConflicts, List.any_cons] at h

/-- Helper for the safe-checkout theorem: when HEAD resolves to a commit in
the store but a tracked file is dirty, `gitCheckoutHead` in SAFE mode fails
with the dirty error and changes nothing. -/
theorem gitCheckoutHead_dirty (r : Repo) (cid : Nat) (c : Commit)
    (h1 : resolveRef r r.headRef = some cid)
    (h2 : lookupCommit r.store cid = some c)
    (h3 : hasDirtyFile r = true) :
    gitCheckoutHead false r =
      Res.err "local changes would be overwritten by checkout" r := by
  unfold gitCheckoutHead
  rw [h1]
  simp [h2, h3]

/-- C1: for branches whose edits relative to the common ancestor touch
disjoint paths, the claim says `merge` creates a two-parent commit
`[A.tip, B.tip]` whose tree is the union of both edits. Evaluating the code
on the disjoint-edit scenario (`main` adds `g.txt`, `feature` modifies
`f.txt`): the commit created by `executeMerge` has the single parent `[1]`
(only HEAD) and its tree is just the ours tree — `feature`'s edit
`f.txt = z` is absent, because `executeMergeCommit` hands `git_merge` zero
heads and `git_commit_create_v` a parent count of 1. -/
theorem executeMerge_disjoint_edits_single_parent :
    executeMerge c1Repo ⟨"main", 1⟩ ⟨"feature", 2⟩ = Res.ok () c1After ∧
    lookupCommit c1After.store 3 =
      some ⟨3, [("f.txt", "x"), ("g.txt", "y")], [1]⟩ ∧
    (∀ c ∈ c1After.store, c.parents ≠ [1, 2]) := by
  decide

/-- C2: with `main`'s tip a strict ancestor of `dev`'s tip, the claim says
`merge(main, dev)` moves `main`'s reference to `dev`'s old tip and
materializes that tree. Evaluating the code: the fast-forward branch of
`performFastforward` only repoints HEAD at `main` itself and re-checks out
`main`'s old tree, so the merge returns success with the repository
completely unchanged — `main` still points at commit 0, not at `dev`'s
tip 1. -/
theorem executeMerge_fastforward_no_ref_move :
    isAncestor c2Repo.store 0 1 = true ∧
    executeMerge c2Repo ⟨"main", 0⟩ ⟨"dev", 1⟩ = Res.ok () c2Repo ∧
    resolveRef c2Repo "main" = some 0 ∧
    ¬ resolveRef c2Repo "main" = some 1 := by
  decide

/-- C3: with both sides editing `f.txt` to different contents, the claim
says the merge terminates without creating any commit and leaves
stage-1/2/3 conflict entries in the index. Evaluating the code: because
`executeMergeCommit` passes zero heads to `git_merge`, no three-way
comparison happens, no conflict entry is ever written, and a new commit of
the ours tree (single parent) is created and the branch advanced. -/
theorem executeMerge_conflicting_edits_commits_anyway :
    executeMerge c3Repo ⟨"main", 1⟩ ⟨"feature", 2⟩ = Res.ok () c3After ∧
    indexHasConflicts c3After.index = false ∧
    getConflictingFiles c3After.index = [] ∧
    lookupCommit c3After.store 3 = some ⟨3, [("f.txt", "z")], [1]⟩ := by
  decide

/-- C4: the claim says the reported conflict set contains every conflicted
path, including conflicts where one side deleted the file. Evaluating
`getConflictingFiles` on an index holding a delete-vs-modify conflict with
the ours side absent: the entry is a genuine conflict
(`indexHasConflicts = true`) yet the returned list is empty, because the
source only pushes `ours->path` under `if (ours)`. -/
theorem getConflictingFiles_omits_ours_deleted :
    indexHasConflicts
      [("f.txt", IdxState.conflict (some "x") none (some "w"))] = true ∧
    getConflictingFiles
      [("f.txt", IdxState.conflict (some "x") none (some "w"))] = [] := by
  decide

/-- C5: with the target's tip already contained in the current branch (here
`merge(main, main)`), the claim says the merge is a no-op mutating nothing.
Evaluating the code: the merge-analysis fast-forward bit is false (the
target is not a strict descendant), so `executeMerge` falls through to
`executeMergeCommit`, which creates a redundant new commit duplicating the
tree and advances `main` to it — the store grows and the reference moves. -/
theorem executeMerge_self_creates_commit :
    isAncestor c5Repo.store 0 0 = true ∧
    executeMerge c5Repo ⟨"main", 0⟩ ⟨"main", 0⟩ = Res.ok () c5After ∧
    resolveRef c5After "main" = some 1 ∧
    c5After.store.length = c5Repo.store.length + 1 := by
  decide

/-- C6 counterexample: the claim says `getLastCommit` reflects a moved
branch reference. Construct a handle while `main` is at commit 0, move
`main` to commit 1, and read the handle: the result is the stale snapshot 0,
not the current tip 1. -/
theorem getLastCommit_stale_after_move_cex :
    mkBranch c6Repo "main" = some c6H ∧
    resolveRef c6Moved "main" = some 1 ∧
    some (getLastCommit c6H) ≠ resolveRef c6Moved "main" := by
  decide

/-- C6 amended: `getLastCommit` returns exactly the tip snapshot cached when
the handle was constructed — it takes no repository state, so a later
reference move is never reflected. -/
theorem getLastCommit_returns_construction_snapshot (r : Repo)
    (name : String) (b : BranchH) (h : mkBranch r name = some b) :
    some (getLastCommit b) = resolveRef r name := by
  cases hr : resolveRef r name with
  | none => simp [mkBranch, hr] at h
  | some tip =>
    simp [mkBranch, hr] at h
    rw [← h]
    rfl

/-- Witness for the amended C6, at the concrete handle of `c6Repo`. -/
theorem getLastCommit_returns_construction_snapshot_witness :
    some (getLastCommit c6H) = resolveRef c6Repo "main" :=
  getLastCommit_returns_construction_snapshot c6Repo "main" c6H (by decide)

/-- C7: the claim says a checkout that fails midway leaves no half-updated
state (never HEAD moved with index/worktree not matching). Evaluating
`checkout` on a repository with a dirty tracked file: `checkout` first
repoints HEAD at `dev`, then the SAFE checkout fails and throws — the error
state has HEAD on `dev` while index and working directory still belong to
`main`'s tree: exactly the forbidden half-updated state. -/
theorem checkout_dirty_leaves_head_moved :
    c7Repo.headRef = "main" ∧
    checkout c7Repo ⟨"dev", 1⟩ =
      Res.err "Checkout failed: local changes would be overwritten by checkout"
        c7Half ∧
    c7Half.headRef = "dev" ∧
    c7Half.index = c7Repo.index ∧
    c7Half.workdir = c7Repo.workdir := by
  decide

/-- C8: for any repository with a dirty tracked file (working copy differing
from the stage-0 index entry) and any target branch resolving to a commit in
the store, `checkout` — which always uses the SAFE strategy, there is no
force path in the source — fails with the dirty-working-tree error and
leaves the working directory and index untouched rather than overwriting the
local changes. -/
theorem checkout_refuses_dirty_working_tree (r : Repo) (t : BranchH)
    (cid : Nat) (c : Commit)
    (h1 : resolveRef r t.refName = some cid)
    (h2 : lookupCommit r.store cid = some c)
    (h3 : hasDirtyFile r = true) :
    checkout r t =
      Res.err "Checkout failed: local changes would be overwritten by checkout"
        (gitRepositorySetHead r t.refName) ∧
    (gitRepositorySetHead r t.refName).workdir = r.workdir ∧
    (gitRepositorySetHead r t.refName).index = r.index := by
  have hd : gitCheckoutHead false (gitRepositorySetHead r t.refName) =
      Res.err "local changes would be overwritten by checkout"
        (gitRepositorySetHead r t.refName) :=
    gitCheckoutHead_dirty (gitRepositorySetHead r t.refName) cid c h1 h2 h3
  refine ⟨?_, rfl, rfl⟩
  unfold checkout
  simp only []
  rw [hd]
  rfl

/-- Witness for C8 at a concrete dirty repository and resolvable target. -/
theorem checkout_refuses_dirty_working_tree_witness :
    hasDirtyFile c8Repo = true ∧
    (checkout c8Repo c8DevH =
      Res.err "Checkout failed: local changes would be overwritten by checkout"
        (gitRepositorySetHead c8Repo "dev") ∧
     (gitRepositorySetHead c8Repo "dev").workdir = c8Repo.workdir ∧
     (gitRepositorySetHead c8Repo "dev").index = c8Repo.index) :=
  ⟨by decide,
   checkout_refuses_dirty_working_tree c8Repo c8DevH 1 c8C1
     (by decide) (by decide) (by decide)⟩

/-- C9: whenever `executeMergeCommit` reaches commit creation (returns
normally), the new commit's sole parent is the commit HEAD resolves to at
that moment, and the commit is written through update-ref "HEAD" — the
function consumes only the repository state, never the branch object the
merge was invoked on, so no correspondence between HEAD and that branch is
checked. -/
theorem executeMergeCommit_sole_parent_is_head (r r' : Repo)
    (h : executeMergeCommit r = Res.ok () r') :
    ∃ hid, resolveRef r r.headRef = some hid ∧
      r'.store = r.store ++ [⟨r.nextId, cleanTree r.index, [hid]⟩] ∧
      r'.refs = setRef r.refs r.headRef r.nextId := by
  obtain ⟨-, hid, hres, -, hr⟩ := executeMergeCommit_ok_inv r r' h
  subst hr
  exact ⟨hid, hres, rfl, rfl⟩

/-- Witness for C9 at a concrete conflict-free repository. -/
theorem executeMergeCommit_sole_parent_is_head_witness :
    ∃ hid, resolveRef c9Repo c9Repo.headRef = some hid ∧
      c9After.store =
        c9Repo.store ++ [⟨c9Repo.nextId, cleanTree c9Repo.index, [hid]⟩] ∧
      c9After.refs = setRef c9Repo.refs c9Repo.headRef c9Repo.nextId :=
  executeMergeCommit_sole_parent_is_head c9Repo c9After (by decide)

/-- C10: whenever `executeMergeCommit` returns normally, the index holds no
conflict entries (it threw otherwise and is not modified afterwards), so
`getConflictingFiles` is empty at that point and the
"Merge completed with conflicts" branch of `executeMerge` is unreachable. -/
theorem executeMergeCommit_ok_no_conflicting_files (r r' : Repo)
    (h : executeMergeCommit r = Res.ok () r') :
    getConflictingFiles r'.index = [] := by
  obtain ⟨hconf, hid, -, -, hr⟩ := executeMergeCommit_ok_inv r r' h
  subst hr
  exact getConflictingFiles_eq_nil_of_no_conflicts r.index hconf

/-- Witness for C10 at a concrete conflict-free repository. -/
theorem executeMergeCommit_ok_no_conflicting_files_witness :
    getConflictingFiles c10After.index = [] :=
  executeMergeCommit_ok_no_conflicting_files c10Repo c10After (by decide)

end Git
